import Mathlib

/-!
Verification of the chat-memory three-tier conversation memory core.

The development shallowly embeds the library's pure budget/split functions
(`TokenEstimationUtil`, `MemorySplitUtil`) and the orchestration logic of
`ThreeTierMemoryManager.buildHistory`.  JavaScript numbers used as token
counts, budgets and the characters-per-token ratio are modelled as integers
(`Math.ceil(a / b)` on a nonnegative numerator and positive denominator is
integer ceiling division; the estimator contract theorem relates it to the
rational ceiling of the specification).  The asynchronous storage and
summarizer adapters are external collaborators: they are modelled as
oracles describing the outcome of each call (a value, `null`, or a
thrown/rejected error), and thrown errors are modelled with `Except`.
-/

deriving instance DecidableEq for Except

namespace ChatMemory

/-- Message role union: system, user, assistant, tool. -/
inductive MessageRole
  | system
  | user
  | assistant
  | tool
deriving DecidableEq, Repr

/-- Discriminator of a multimodal content part. -/
inductive PartType
  | text
  | image_url
deriving DecidableEq, Repr

/-- One part of a multimodal message (`ContentPart` in types.ts). -/
structure ContentPart where
  type : PartType
  text : Option String := none
  imageUrl : Option String := none
deriving DecidableEq, Repr

/-- Message content: a plain string or a list of multimodal parts. -/
inductive Content
  | str (s : String)
  | parts (ps : List ContentPart)
deriving DecidableEq, Repr

/-- A tool call attached to an assistant message (unused by the core logic). -/
structure ToolCall where
  id : String
  name : String
  arguments : String
deriving DecidableEq, Repr

/-- A chat message (`Message` in types.ts). -/
structure Message where
  role : MessageRole
  content : Content
  name : Option String := none
  toolCallId : Option String := none
  toolCalls : Option (List ToolCall) := none
deriving DecidableEq, Repr

/-- JavaScript truthiness of an optional string: `undefined` and `""` are falsy. -/
def strTruthy : Option String → Bool
  | some s => !s.isEmpty
  | none => false

/-- Integer rendering of `Math.ceil(a / b)` for a positive divisor. -/
def mathCeilDiv (a b : ℤ) : ℤ := (a + b - 1) / b

/-- TokenEstimationUtil.estimateStringTokens:
`if (!text || charsPerToken <= 0) return 0; return Math.ceil(text.length / charsPerToken)`. -/
def estimateStringTokens (text : String) (charsPerToken : ℤ) : ℤ :=
  if text.length = 0 ∨ charsPerToken ≤ 0 then 0
  else mathCeilDiv text.length charsPerToken

/-- Characters contributed by one content part in the loop of
`estimateContentTokens`: `if (part.type === 'text' && part.text) totalChars += part.text.length`. -/
def partTextChars (p : ContentPart) : ℕ :=
  if p.type = PartType.text ∧ strTruthy p.text then (p.text.getD "").length else 0

/-- TokenEstimationUtil.estimateContentTokens: strings delegate to
`estimateStringTokens`; part lists sum the text characters of text parts and
take one ceiling, guarded by `charsPerToken <= 0`. -/
def estimateContentTokens (content : Content) (charsPerToken : ℤ) : ℤ :=
  match content with
  | .str s => estimateStringTokens s charsPerToken
  | .parts ps =>
    if charsPerToken ≤ 0 then 0
    else mathCeilDiv (ps.foldl (fun acc p => acc + partTextChars p) 0 : ℕ) charsPerToken

/-- Token budget configuration (`TokenBudgetConfig` in types.ts). -/
structure TokenBudgetConfig where
  contextWindow : ℤ
  maxOutputTokens : ℤ
  systemMessage : Option String := none
  newUserMessage : Option String := none
  charsPerToken : Option ℤ := none
  safetyMargin : Option ℤ := none
deriving DecidableEq, Repr

/-- Three-tier configuration: a budget configuration plus the summary-slot
reservation (`ThreeTierConfig` in types.ts). -/
structure ThreeTierConfig extends TokenBudgetConfig where
  maxSummaryBudgetTokens : ℤ
deriving DecidableEq, Repr

/-- Result of the three-tier split (`ThreeTierSplitResult` in types.ts). -/
structure ThreeTierSplitResult where
  firstPair : List Message
  droppedMessages : List Message
  recentMessages : List Message
  processedThroughIndex : ℕ
  wasTruncated : Bool
deriving DecidableEq, Repr

/-- MemorySplitUtil.calculateHistoryBudget: context window minus reserved
output tokens, the safety margin (default 200), and the estimated tokens of
the (truthy) system and pending new-user messages. -/
def calculateHistoryBudget (config : TokenBudgetConfig) : ℤ :=
  let safetyMargin := config.safetyMargin.getD 200
  let b0 := config.contextWindow - config.maxOutputTokens - safetyMargin
  let b1 := if strTruthy config.systemMessage then
      b0 - estimateStringTokens (config.systemMessage.getD "") (config.charsPerToken.getD 4)
    else b0
  if strTruthy config.newUserMessage then
    b1 - estimateStringTokens (config.newUserMessage.getD "") (config.charsPerToken.getD 4)
  else b1

/-- Sum of estimated content tokens over a message list (the accumulation
loops of `truncateToTokenBudget` and `splitForThreeTierMemory`). -/
def sumTokens (cpt : ℤ) (l : List Message) : ℤ :=
  (l.map fun m => estimateContentTokens m.content cpt).sum

/-- The backward walk shared by `truncateToTokenBudget` and the recent-window
fill of `splitForThreeTierMemory`: the input list is ordered newest first,
and the walk keeps messages until the first one whose inclusion would exceed
the budget, which stops the walk entirely (the loop `break`). -/
def keepFromNewest (cpt : ℤ) (budget : ℤ) : List Message → ℤ → List Message
  | [], _ => []
  | m :: rest, used =>
    let msgTokens := estimateContentTokens m.content cpt
    if budget < used + msgTokens then []
    else m :: keepFromNewest cpt budget rest (used + msgTokens)

/-- MemorySplitUtil.truncateToTokenBudget: empty input or exhausted budget
yields an empty result; otherwise walk from newest to oldest accumulating
tokens and return the kept messages in chronological order. -/
def truncateToTokenBudget (messages : List Message) (config : TokenBudgetConfig) : List Message :=
  if messages.isEmpty then []
  else
    let budget := calculateHistoryBudget config
    if budget ≤ 0 then []
    else (keepFromNewest (config.charsPerToken.getD 4) budget messages.reverse 0).reverse

/-- The genuinely-truncated branch of `splitForThreeTierMemory`: anchor the
first pair, fill the recent window backward from the newest message within
the remaining budget, and mark everything in between as dropped. -/
def splitTruncated (cpt : ℤ) (totalBudget firstPairTokens maxSummaryBudgetTokens : ℤ)
    (m0 m1 : Message) (rest : List Message) : ThreeTierSplitResult :=
  let recentBudget := totalBudget - firstPairTokens - maxSummaryBudgetTokens
  let recentMessages :=
    if 0 < recentBudget then (keepFromNewest cpt recentBudget rest.reverse 0).reverse else []
  let droppedMessages := rest.take (rest.length - recentMessages.length)
  { firstPair := [m0, m1]
    droppedMessages := droppedMessages
    recentMessages := recentMessages
    processedThroughIndex := rest.length + 1
    wasTruncated := true }

/-- MemorySplitUtil.splitForThreeTierMemory.  Fewer than two messages always
reports no truncation; an exhausted budget or an anchor pair at or above the
budget reports full truncation with an empty anchor (fallback signal); a
history that fits reports no truncation; otherwise the three-tier split. -/
def splitForThreeTierMemory (messages : List Message) (config : ThreeTierConfig) :
    ThreeTierSplitResult :=
  let noTruncation : ThreeTierSplitResult :=
    { firstPair := []
      droppedMessages := []
      recentMessages := messages
      processedThroughIndex := messages.length - 1
      wasTruncated := false }
  match messages with
  | [] => noTruncation
  | [_] => noTruncation
  | m0 :: m1 :: rest =>
    let cpt := config.charsPerToken.getD 4
    let totalBudget := calculateHistoryBudget config.toTokenBudgetConfig
    if totalBudget ≤ 0 then
      { firstPair := []
        droppedMessages := m0 :: m1 :: rest
        recentMessages := []
        processedThroughIndex := rest.length + 1
        wasTruncated := true }
    else
      let firstPairTokens :=
        estimateContentTokens m0.content cpt + estimateContentTokens m1.content cpt
      if totalBudget ≤ firstPairTokens then
        { firstPair := []
          droppedMessages := m0 :: m1 :: rest
          recentMessages := []
          processedThroughIndex := rest.length + 1
          wasTruncated := true }
      else
        let allMessagesTokens := sumTokens cpt (m0 :: m1 :: rest)
        if allMessagesTokens ≤ totalBudget then noTruncation
        else splitTruncated cpt totalBudget firstPairTokens config.maxSummaryBudgetTokens m0 m1 rest

/-! Orchestrator (`ThreeTierMemoryManager` in three-tier-memory-manager.ts).

The storage and summarizer adapters are external collaborators.  The store
is modelled per memory-context key: a single optional persisted record (the
entity-addressing fields of `MemorySummaryRecord` select the record and are
constant within a call, so only the fields the orchestrator reads are
modelled).  A `CollabBehavior` is an oracle fixing the outcome of each
collaborator call a single `buildHistory` call can make: whether the
storage read throws/rejects, what the summarization engine does (a summary
string, `null`, or a thrown/rejected error), and whether the fire-and-forget
persistence write succeeds.  The text rendered for the engine
(`messagesText`) is only passed to the external adapter, whose modelled
outcome does not depend on it, so it is not reconstructed here. -/

/-- Persisted summary record: the fields of `MemorySummaryRecord` the
orchestrator reads (`summary`, `summarizedThroughIndex`). -/
structure MemorySummaryRecord where
  summary : String
  summarizedThroughIndex : ℤ
deriving DecidableEq, Repr

/-- The persisted-summary store for the memory context of the call. -/
structure StoreState where
  record : Option MemorySummaryRecord
deriving DecidableEq, Repr

/-- Outcome of one summarization-engine call: a result (`string | null`) or
a thrown/rejected error. -/
inductive SummarizeOutcome
  | ok (result : Option String)
  | throwErr
deriving DecidableEq, Repr

/-- Oracle for the collaborator calls of one `buildHistory` invocation. -/
structure CollabBehavior where
  getThrows : Bool
  summarizeOutcome : SummarizeOutcome
  upsertSucceeds : Bool
deriving DecidableEq, Repr

/-- Number of calls made to each collaborator operation. -/
structure Calls where
  getSummaryCalls : ℕ
  summarizeCalls : ℕ
  upsertCalls : ℕ
deriving DecidableEq, Repr

/-- No collaborator calls. -/
def Calls.zero : Calls := ⟨0, 0, 0⟩

/-- Constructor configuration of `ThreeTierMemoryManager`, together with
which adapters were supplied. -/
structure ManagerConfig where
  hasStorage : Bool
  hasSummarizer : Bool
  summarizationEnabled : Bool := true
  maxSummaryBudgetTokens : ℤ := 500
  charsPerToken : Option ℤ := none
deriving DecidableEq, Repr

/-- The summary wrapped as a user message:
`{ role: 'user', content: "[Conversation Summary]\n" + text }`. -/
def summaryWrap (text : String) : Message :=
  { role := .user, content := .str ("[Conversation Summary]\n" ++ text) }

/-- Which dropped messages are newly dropped (not yet summarized), from the
marker of the existing record: `summarizedThroughIndex` stores
`droppedMessages.length + 1`, so `summarizedThroughIndex - 1` dropped
messages are already summarized (markers `≤ 1` mean none). -/
def newlyDroppedOf (existing : Option MemorySummaryRecord) (dropped : List Message) :
    List Message :=
  match existing with
  | some r =>
    if 1 < r.summarizedThroughIndex then
      let alreadySummarizedInDropped := r.summarizedThroughIndex - 1
      if alreadySummarizedInDropped < (dropped.length : ℤ) then
        dropped.drop alreadySummarizedInDropped.toNat
      else []
    else dropped
  | none => dropped

/-- Body of the `try` block of `buildSummaryMessage`: load the existing
record, short-circuit to the cached summary when nothing new needs
summarizing, otherwise call the engine.  The engine result is checked for
JavaScript truthiness (`if (summaryText)`): a truthy — non-null and
non-empty — string is a success and is persisted (fire-and-forget: a
failed write is only logged) and returned; a falsy result (`null` or the
empty string) is a failure that falls back to the existing summary when
one exists and otherwise to no message.  A thrown/rejected storage read or
engine call is `Except.error`, carrying the calls made so far. -/
def summaryTryBody (beh : CollabBehavior) (st : StoreState) (dropped : List Message) :
    Except Calls (Option Message × StoreState × Calls) :=
  if beh.getThrows then .error ⟨1, 0, 0⟩
  else
    let existingSummary := st.record
    let newlyDroppedMessages := newlyDroppedOf existingSummary dropped
    if newlyDroppedMessages.length = 0 ∧ existingSummary.isSome then
      .ok (some (summaryWrap ((existingSummary.getD ⟨"", 0⟩).summary)), st, ⟨1, 0, 0⟩)
    else if 0 < newlyDroppedMessages.length then
      match beh.summarizeOutcome with
      | .throwErr => .error ⟨1, 1, 0⟩
      | .ok summaryText =>
        if strTruthy summaryText then
          let newSummarizedThroughIndex : ℤ := (dropped.length : ℤ) + 1
          let st' : StoreState :=
            if beh.upsertSucceeds then
              ⟨some ⟨summaryText.getD "", newSummarizedThroughIndex⟩⟩
            else st
          .ok (some (summaryWrap (summaryText.getD "")), st', ⟨1, 1, 1⟩)
        else
          match existingSummary with
          | some r => .ok (some (summaryWrap r.summary), st, ⟨1, 1, 0⟩)
          | none => .ok (none, st, ⟨1, 1, 0⟩)
    else .ok (none, st, ⟨1, 0, 0⟩)

/-- ThreeTierMemoryManager.buildSummaryMessage: no-op without dropped
messages, with summarization disabled, or with a missing adapter; otherwise
the `try` body with its `catch` (a caught error is logged and resolved to
no summary message). -/
def buildSummaryMessage (mgr : ManagerConfig) (beh : CollabBehavior) (st : StoreState)
    (droppedMessages : List Message) : Except Calls (Option Message × StoreState × Calls) :=
  if droppedMessages.length = 0 ∨ mgr.summarizationEnabled = false then .ok (none, st, Calls.zero)
  else if mgr.hasStorage = false ∨ mgr.hasSummarizer = false then .ok (none, st, Calls.zero)
  else
    match summaryTryBody beh st droppedMessages with
    | .ok r => .ok r
    | .error c => .ok (none, st, c)

/-- Input of `buildHistory` (`BuildHistoryInput` in types.ts; the opaque
`summarizationContext` is only forwarded to the external engine). -/
structure BuildHistoryInput where
  allHistory : List Message
  contextWindow : ℤ
  maxOutputTokens : ℤ
  systemMessage : Option String := none
  newUserMessage : Option String := none
deriving DecidableEq, Repr

/-- The token budget configuration `truncateMessages` builds from a call's
inputs and the manager configuration (no safety margin: the default 200
applies). -/
def budgetConfigOf (mgr : ManagerConfig) (input : BuildHistoryInput) : TokenBudgetConfig :=
  { contextWindow := input.contextWindow
    maxOutputTokens := input.maxOutputTokens
    systemMessage := input.systemMessage
    newUserMessage := input.newUserMessage
    charsPerToken := mgr.charsPerToken }

/-- The three-tier configuration `splitMessages` builds: the budget
configuration plus the manager's summary-slot reservation. -/
def threeTierConfigOf (mgr : ManagerConfig) (input : BuildHistoryInput) : ThreeTierConfig :=
  { budgetConfigOf mgr input with maxSummaryBudgetTokens := mgr.maxSummaryBudgetTokens }

/-- ThreeTierMemoryManager.splitMessages: a no-truncation result for fewer
than two messages, otherwise `splitForThreeTierMemory`. -/
def splitMessages (mgr : ManagerConfig) (input : BuildHistoryInput) : ThreeTierSplitResult :=
  if input.allHistory.length < 2 then
    { firstPair := []
      droppedMessages := []
      recentMessages := input.allHistory
      processedThroughIndex := input.allHistory.length - 1
      wasTruncated := false }
  else splitForThreeTierMemory input.allHistory (threeTierConfigOf mgr input)

/-- ThreeTierMemoryManager.truncateMessages: the sliding-window fallback. -/
def truncateMessages (mgr : ManagerConfig) (input : BuildHistoryInput) : List Message :=
  if input.allHistory.isEmpty then input.allHistory
  else truncateToTokenBudget input.allHistory (budgetConfigOf mgr input)

/-- The pending new-user message appended by `buildHistory` when
`newUserMessage` is truthy. -/
def pendingList (input : BuildHistoryInput) : List Message :=
  if strTruthy input.newUserMessage then
    [{ role := .user, content := .str (input.newUserMessage.getD "") }]
  else []

/-- ThreeTierMemoryManager.buildHistory.  `hasContext` states whether a
memory context was supplied.  Returns the assembled history together with
the resulting store state and the collaborator calls made; an uncaught
collaborator error would surface as `Except.error`. -/
def buildHistory (mgr : ManagerConfig) (input : BuildHistoryInput) (hasContext : Bool)
    (beh : CollabBehavior) (st : StoreState) :
    Except Calls (List Message × StoreState × Calls) :=
  let splitResult := splitMessages mgr input
  if splitResult.wasTruncated = false then
    .ok (input.allHistory ++ pendingList input, st, Calls.zero)
  else if splitResult.firstPair.length = 0 then
    .ok (truncateMessages mgr input ++ pendingList input, st, Calls.zero)
  else
    match (if hasContext then buildSummaryMessage mgr beh st splitResult.droppedMessages
           else .ok (none, st, Calls.zero)) with
    | .error e => .error e
    | .ok (summaryMessage, st', calls) =>
      .ok (splitResult.firstPair ++ summaryMessage.toList ++
            splitResult.recentMessages ++ pendingList input,
           st', calls)

/-! Helper lemmas about the estimator and the backward walk. -/

/-- Integer ceiling division agrees with the rational ceiling for a
positive divisor. -/
theorem mathCeilDiv_eq_ceil (a b : ℤ) (hb : 0 < b) :
    mathCeilDiv a b = ⌈(a : ℚ) / (b : ℚ)⌉ := by
  have hbQ : (0 : ℚ) < (b : ℚ) := by exact_mod_cast hb
  have hed : b * ((a + b - 1) / b) + (a + b - 1) % b = a + b - 1 :=
    Int.ediv_add_emod _ _
  have hr0 : 0 ≤ (a + b - 1) % b := Int.emod_nonneg _ (by omega)
  have hrb : (a + b - 1) % b < b := Int.emod_lt_of_pos _ hb
  symm
  rw [Int.ceil_eq_iff]
  unfold mathCeilDiv
  constructor
  · rw [show ((((a + b - 1) / b : ℤ) : ℚ) - 1) = (((a + b - 1) / b - 1 : ℤ) : ℚ) by push_cast; ring,
      lt_div_iff₀ hbQ]
    have : ((a + b - 1) / b - 1) * b < a := by nlinarith
    exact_mod_cast this
  · rw [div_le_iff₀ hbQ]
    have : a ≤ ((a + b - 1) / b) * b := by nlinarith
    exact_mod_cast this

theorem estimateStringTokens_nonneg (s : String) (cpt : ℤ) :
    0 ≤ estimateStringTokens s cpt := by
  rw [estimateStringTokens]
  by_cases h : s.length = 0 ∨ cpt ≤ 0
  · rw [if_pos h]
  · rw [if_neg h, mathCeilDiv]
    push_neg at h
    have h0 : (0 : ℤ) ≤ (s.length : ℤ) + cpt - 1 := by omega
    exact Int.ediv_nonneg h0 (by omega)

theorem estimateContentTokens_nonneg (c : Content) (cpt : ℤ) :
    0 ≤ estimateContentTokens c cpt := by
  cases c with
  | str s => exact estimateStringTokens_nonneg s cpt
  | parts ps =>
    show 0 ≤ (if cpt ≤ 0 then 0
      else mathCeilDiv (ps.foldl (fun acc p => acc + partTextChars p) 0 : ℕ) cpt)
    by_cases h : cpt ≤ 0
    · rw [if_pos h]
    · rw [if_neg h, mathCeilDiv]
      push_neg at h
      have h0 : (0 : ℤ) ≤ ((ps.foldl (fun acc p => acc + partTextChars p) 0 : ℕ) : ℤ) + cpt - 1 := by
        omega
      exact Int.ediv_nonneg h0 (by omega)

theorem sumTokens_nil (cpt : ℤ) : sumTokens cpt [] = 0 := rfl

theorem sumTokens_cons (cpt : ℤ) (m : Message) (l : List Message) :
    sumTokens cpt (m :: l) = estimateContentTokens m.content cpt + sumTokens cpt l := by
  simp [sumTokens]

theorem sumTokens_append (cpt : ℤ) (l₁ l₂ : List Message) :
    sumTokens cpt (l₁ ++ l₂) = sumTokens cpt l₁ + sumTokens cpt l₂ := by
  simp [sumTokens]

theorem sumTokens_reverse (cpt : ℤ) (l : List Message) :
    sumTokens cpt l.reverse = sumTokens cpt l := by
  rw [sumTokens, sumTokens, List.map_reverse, List.sum_reverse]

theorem sumTokens_nonneg (cpt : ℤ) (l : List Message) : 0 ≤ sumTokens cpt l := by
  apply List.sum_nonneg
  intro x hx
  rw [List.mem_map] at hx
  obtain ⟨m, -, rfl⟩ := hx
  exact estimateContentTokens_nonneg m.content cpt

theorem keepFromNewest_cons (cpt budget : ℤ) (m : Message) (l : List Message) (u : ℤ) :
    keepFromNewest cpt budget (m :: l) u =
      if budget < u + estimateContentTokens m.content cpt then []
      else m :: keepFromNewest cpt budget l (u + estimateContentTokens m.content cpt) := rfl

/-- The kept messages are an initial segment of the (newest-first) walk input. -/
theorem keepFromNewest_take (cpt budget : ℤ) (l : List Message) : ∀ (u : ℤ),
    keepFromNewest cpt budget l u = l.take (keepFromNewest cpt budget l u).length := by
  induction l with
  | nil => intro u; rfl
  | cons m l ih =>
    intro u
    rw [keepFromNewest_cons]
    split
    · rfl
    · simp only [List.length_cons, List.take_succ_cons]
      exact congrArg (m :: ·) (ih _)

theorem keepFromNewest_length_le (cpt budget : ℤ) (l : List Message) : ∀ (u : ℤ),
    (keepFromNewest cpt budget l u).length ≤ l.length := by
  induction l with
  | nil => intro u; exact le_refl 0
  | cons m l ih =>
    intro u
    rw [keepFromNewest_cons]
    split
    · simp
    · simpa using ih _

/-- The kept messages never exceed the remaining budget. -/
theorem keepFromNewest_sum_le (cpt budget : ℤ) (l : List Message) : ∀ (u : ℤ), u ≤ budget →
    u + sumTokens cpt (keepFromNewest cpt budget l u) ≤ budget := by
  induction l with
  | nil => intro u hu; simpa [keepFromNewest, sumTokens] using hu
  | cons m l ih =>
    intro u hu
    rw [keepFromNewest_cons]
    split
    · simpa [sumTokens] using hu
    · rename_i hle
      push_neg at hle
      have := ih _ hle
      rw [sumTokens_cons]
      linarith

/-- Everything is kept when the whole walk input fits the budget. -/
theorem keepFromNewest_all (cpt budget : ℤ) (l : List Message) : ∀ (u : ℤ),
    u + sumTokens cpt l ≤ budget → keepFromNewest cpt budget l u = l := by
  induction l with
  | nil => intro u _; rfl
  | cons m l ih =>
    intro u hu
    rw [sumTokens_cons] at hu
    have hs := sumTokens_nonneg cpt l
    rw [keepFromNewest_cons, if_neg (by linarith)]
    exact congrArg (m :: ·) (ih _ (by linarith))

/-- Either the whole walk input is kept, or the walk stopped at the first
message whose inclusion would exceed the budget. -/
theorem keepFromNewest_stop (cpt budget : ℤ) (l : List Message) : ∀ (u : ℤ),
    keepFromNewest cpt budget l u = l ∨
    ∃ m, budget < u + sumTokens cpt (keepFromNewest cpt budget l u)
            + estimateContentTokens m.content cpt ∧
      l.take ((keepFromNewest cpt budget l u).length + 1) =
        keepFromNewest cpt budget l u ++ [m] := by
  induction l with
  | nil => intro u; exact Or.inl rfl
  | cons m l ih =>
    intro u
    rw [keepFromNewest_cons]
    by_cases hb : budget < u + estimateContentTokens m.content cpt
    · rw [if_pos hb]
      exact Or.inr ⟨m, by simpa [sumTokens] using hb, by simp⟩
    · rw [if_neg hb]
      rcases ih (u + estimateContentTokens m.content cpt) with h | ⟨m', h1, h2⟩
      · exact Or.inl (by rw [h])
      · refine Or.inr ⟨m', ?_, ?_⟩
        · rw [sumTokens_cons]; linarith
        · simp only [List.length_cons]
          rw [show (keepFromNewest cpt budget l
                (u + estimateContentTokens m.content cpt)).length + 1 + 1 =
              ((keepFromNewest cpt budget l
                (u + estimateContentTokens m.content cpt)).length + 1) + 1 from rfl,
            List.take_succ_cons, h2]
          rfl

/-- Reversing a prefix of the reversal yields a drop of the original list. -/
theorem reverse_take_reverse {α : Type} (l : List α) (j : ℕ) (hj : j ≤ l.length) :
    (l.reverse.take j).reverse = l.drop (l.length - j) := by
  have h1 : l.reverse =
      (l.drop (l.length - j)).reverse ++ (l.take (l.length - j)).reverse := by
    rw [← List.reverse_append, List.take_append_drop]
  have hl : (l.drop (l.length - j)).reverse.length = j := by
    rw [List.length_reverse, List.length_drop]
    omega
  rw [h1, List.take_left' hl, List.reverse_reverse]

/-- Characterization of the sliding window for a positive budget: the result
is the suffix at some cut `k`, it fits the budget, and when any message was
cut off, already the one-longer suffix overflows the budget (so the walk
stopped at the first overflowing message). -/
theorem keep_reverse_spec (cpt b : ℤ) (hb : 0 < b) (l : List Message) :
    ∃ k ≤ l.length,
      (keepFromNewest cpt b l.reverse 0).reverse = l.drop k ∧
      sumTokens cpt (l.drop k) ≤ b ∧
      (0 < k → b < sumTokens cpt (l.drop (k - 1))) := by
  generalize hkept : keepFromNewest cpt b l.reverse 0 = kept
  have hn : kept.length ≤ l.length := by
    rw [← hkept]
    simpa using keepFromNewest_length_le cpt b l.reverse 0
  have htake : kept = l.reverse.take kept.length := by
    have h := keepFromNewest_take cpt b l.reverse 0
    rw [hkept] at h
    exact h
  have hdrop : kept.reverse = l.drop (l.length - kept.length) := by
    nth_rewrite 1 [htake]
    exact reverse_take_reverse l kept.length hn
  refine ⟨l.length - kept.length, by omega, hdrop, ?_, ?_⟩
  · rw [← hdrop, sumTokens_reverse]
    have h := keepFromNewest_sum_le cpt b l.reverse 0 hb.le
    rw [hkept] at h
    simpa using h
  · intro hk
    rcases keepFromNewest_stop cpt b l.reverse 0 with hall | ⟨m, h1, h2⟩
    · exfalso
      rw [hkept] at hall
      have : kept.length = l.length := by rw [hall, List.length_reverse]
      omega
    · rw [hkept] at h1 h2
      have hlen : kept.length + 1 ≤ l.length := by
        have hc := congrArg List.length h2
        rw [List.length_take, List.length_append, List.length_reverse] at hc
        simp at hc
        omega
      have hdrop1 : l.drop (l.length - (kept.length + 1)) = m :: kept.reverse := by
        rw [← reverse_take_reverse l (kept.length + 1) hlen, h2]
        simp
      rw [show l.length - kept.length - 1 = l.length - (kept.length + 1) by omega, hdrop1,
        sumTokens_cons, sumTokens_reverse]
      linarith

theorem truncateToTokenBudget_spec (messages : List Message) (config : TokenBudgetConfig)
    (hb : 0 < calculateHistoryBudget config) :
    ∃ k ≤ messages.length,
      truncateToTokenBudget messages config = messages.drop k ∧
      sumTokens (config.charsPerToken.getD 4) (messages.drop k) ≤ calculateHistoryBudget config ∧
      (0 < k → calculateHistoryBudget config <
        sumTokens (config.charsPerToken.getD 4) (messages.drop (k - 1))) := by
  by_cases hm : messages.isEmpty
  · refine ⟨0, Nat.zero_le _, ?_, ?_, by omega⟩
    · rw [truncateToTokenBudget, if_pos hm, List.isEmpty_iff.mp hm]
      rfl
    · rw [List.drop_zero, List.isEmpty_iff.mp hm, sumTokens_nil]
      exact hb.le
  · have htr : truncateToTokenBudget messages config =
        (keepFromNewest (config.charsPerToken.getD 4) (calculateHistoryBudget config)
          messages.reverse 0).reverse := by
      rw [truncateToTokenBudget, if_neg hm, if_neg (not_le.mpr hb)]
    rw [htr]
    exact keep_reverse_spec _ _ hb messages

theorem foldl_partTextChars (ps : List ContentPart) : ∀ (a : ℕ),
    ps.foldl (fun acc p => acc + partTextChars p) a = a + (ps.map partTextChars).sum := by
  induction ps with
  | nil => intro a; simp
  | cons p ps ih =>
    intro a
    simp only [List.foldl_cons, List.map_cons, List.sum_cons, ih]
    omega

/-- The loop contribution of a part equals the specification's reading: a
text part counts its text length, an image part counts zero (an absent or
empty text field contributes zero either way). -/
theorem partTextChars_eq (p : ContentPart) :
    partTextChars p = if p.type = PartType.text then (p.text.getD "").length else 0 := by
  rw [partTextChars]
  rcases p with ⟨ty, txt, iu⟩
  cases txt with
  | none => simp [strTruthy]
  | some s =>
    by_cases hs : s.isEmpty
    · have hs' : s = "" := (String.isEmpty_iff s).mp hs
      subst hs'
      simp [strTruthy]
    · simp [strTruthy, hs]

/-- Short plain-text user message, used in concrete witness instances. -/
def msgOfStr (s : String) : Message := { role := .user, content := .str s }

/-! Claim theorems for the budget splitter and estimator. -/

/-- C2: `truncateToTokenBudget` returns an empty list for an empty input or
a non-positive available budget; for a positive budget it returns a
contiguous suffix of the input in original order whose estimated token
total fits the budget, and the suffix is maximal in the walk sense: if any
message was cut, the next older message would overflow the budget, which
stopped the walk entirely (so older messages are never considered). -/
theorem C2_sliding_window_contract (messages : List Message) (config : TokenBudgetConfig) :
    (messages = [] → truncateToTokenBudget messages config = []) ∧
    (calculateHistoryBudget config ≤ 0 → truncateToTokenBudget messages config = []) ∧
    (0 < calculateHistoryBudget config →
      ∃ k ≤ messages.length,
        truncateToTokenBudget messages config = messages.drop k ∧
        sumTokens (config.charsPerToken.getD 4) (messages.drop k) ≤
          calculateHistoryBudget config ∧
        (0 < k → calculateHistoryBudget config <
          sumTokens (config.charsPerToken.getD 4) (messages.drop (k - 1)))) := by
  refine ⟨?_, ?_, fun hb => truncateToTokenBudget_spec messages config hb⟩
  · rintro rfl
    rfl
  · intro hb
    by_cases hm : messages.isEmpty
    · simp [truncateToTokenBudget, hm]
    · simp [truncateToTokenBudget, hm, hb]

/-- Witness for C2 at a concrete input: budget 3 with messages of 2, 1, 1
estimated tokens keeps exactly the last two messages (cut k = 1), and the
one-longer suffix overflows. -/
theorem C2_witness :
    ∃ k ≤ ([msgOfStr "aaaaaaaa", msgOfStr "aaaa", msgOfStr "aaaa"] : List Message).length,
      truncateToTokenBudget [msgOfStr "aaaaaaaa", msgOfStr "aaaa", msgOfStr "aaaa"]
          { contextWindow := 203, maxOutputTokens := 0 } =
        ([msgOfStr "aaaaaaaa", msgOfStr "aaaa", msgOfStr "aaaa"] : List Message).drop k ∧
      sumTokens (({ contextWindow := 203, maxOutputTokens := 0 } :
            TokenBudgetConfig).charsPerToken.getD 4)
          (([msgOfStr "aaaaaaaa", msgOfStr "aaaa", msgOfStr "aaaa"] : List Message).drop k) ≤
        calculateHistoryBudget { contextWindow := 203, maxOutputTokens := 0 } ∧
      (0 < k → calculateHistoryBudget { contextWindow := 203, maxOutputTokens := 0 } <
        sumTokens (({ contextWindow := 203, maxOutputTokens := 0 } :
            TokenBudgetConfig).charsPerToken.getD 4)
          (([msgOfStr "aaaaaaaa", msgOfStr "aaaa", msgOfStr "aaaa"] : List Message).drop (k - 1))) :=
  (C2_sliding_window_contract [msgOfStr "aaaaaaaa", msgOfStr "aaaa", msgOfStr "aaaa"]
      { contextWindow := 203, maxOutputTokens := 0 }).2.2 (by decide)

/-- C8: for fewer than two messages the split reports no truncation with an
empty anchor pair, an empty dropped tier and the full input as the recent
tier, for every configuration including non-positive budgets. -/
theorem C8_short_history (messages : List Message) (config : ThreeTierConfig)
    (h : messages.length < 2) :
    splitForThreeTierMemory messages config =
      { firstPair := [], droppedMessages := [], recentMessages := messages,
        processedThroughIndex := messages.length - 1, wasTruncated := false } := by
  rcases messages with _ | ⟨m0, _ | ⟨m1, rest⟩⟩
  · rfl
  · rfl
  · exfalso
    simp [List.length_cons] at h
    omega

/-- Witness for C8: one message under an exhausted budget. -/
theorem C8_witness :
    splitForThreeTierMemory [msgOfStr "x"]
        { contextWindow := 0, maxOutputTokens := 0, maxSummaryBudgetTokens := 500 } =
      { firstPair := [], droppedMessages := [], recentMessages := [msgOfStr "x"],
        processedThroughIndex := 0, wasTruncated := false } :=
  C8_short_history [msgOfStr "x"]
    { contextWindow := 0, maxOutputTokens := 0, maxSummaryBudgetTokens := 500 } (by decide)

/-- C9: the estimator contract.  A non-empty string under a positive ratio
estimates to the rational ceiling of characters over the ratio; empty input
or a non-positive ratio estimates to zero; multi-part content takes the
ceiling of the summed text-part characters (each part's text measured
independently, image parts contributing zero); the estimate is always a
non-negative integer (and the functions are total, so they never raise). -/
theorem C9_estimator_contract :
    (∀ (s : String) (cpt : ℤ), s.length ≠ 0 → 0 < cpt →
      estimateStringTokens s cpt = ⌈((s.length : ℚ)) / ((cpt : ℤ) : ℚ)⌉) ∧
    (∀ (s : String) (cpt : ℤ), s.length = 0 ∨ cpt ≤ 0 → estimateStringTokens s cpt = 0) ∧
    (∀ (ps : List ContentPart) (cpt : ℤ), 0 < cpt →
      estimateContentTokens (.parts ps) cpt =
        ⌈((((ps.map fun p => if p.type = PartType.text then (p.text.getD "").length else 0).sum
            : ℕ) : ℚ)) / ((cpt : ℤ) : ℚ)⌉) ∧
    (∀ (c : Content) (cpt : ℤ), 0 ≤ estimateContentTokens c cpt) := by
  refine ⟨?_, ?_, ?_, estimateContentTokens_nonneg⟩
  · intro s cpt h1 h2
    rw [estimateStringTokens, if_neg (by push_neg; exact ⟨h1, h2⟩),
      mathCeilDiv_eq_ceil _ _ h2]
    norm_num
  · intro s cpt h
    rw [estimateStringTokens, if_pos h]
  · intro ps cpt h
    have hsum : (ps.map partTextChars).sum =
        (ps.map fun p => if p.type = PartType.text then (p.text.getD "").length else 0).sum :=
      congrArg List.sum (List.map_congr_left fun p _ => partTextChars_eq p)
    show (if cpt ≤ 0 then 0
        else mathCeilDiv (ps.foldl (fun acc p => acc + partTextChars p) 0 : ℕ) cpt) = _
    rw [if_neg (not_le.mpr h), mathCeilDiv_eq_ceil _ _ h, foldl_partTextChars, zero_add, hsum,
      Int.cast_natCast]

/-- Witness for C9 at concrete inputs. -/
theorem C9_witness :
    (estimateStringTokens "abcde" 4 = ⌈((("abcde" : String).length : ℚ)) / (((4 : ℤ) : ℤ) : ℚ)⌉) ∧
    (estimateStringTokens "" 4 = 0) ∧
    (estimateContentTokens
        (.parts [{ type := PartType.text, text := some "abcde" }, { type := PartType.image_url }]) 4 =
      ⌈(((([({ type := PartType.text, text := some "abcde" } : ContentPart),
            { type := PartType.image_url }].map
            fun p => if p.type = PartType.text then (p.text.getD "").length else 0).sum
          : ℕ) : ℚ)) / (((4 : ℤ) : ℤ) : ℚ)⌉) ∧
    (0 ≤ estimateContentTokens (.str "abc") 4) :=
  ⟨C9_estimator_contract.1 "abcde" 4 (by decide) (by decide),
   C9_estimator_contract.2.1 "" 4 (by decide),
   C9_estimator_contract.2.2.1
     [{ type := PartType.text, text := some "abcde" }, { type := PartType.image_url }] 4 (by decide),
   C9_estimator_contract.2.2.2 (.str "abc") 4⟩

/-- Concatenation property of the genuinely-truncated branch. -/
theorem splitTruncated_concat (cpt tb fp msb : ℤ) (m0 m1 : Message) (rest : List Message) :
    (splitTruncated cpt tb fp msb m0 m1 rest).firstPair ++
      (splitTruncated cpt tb fp msb m0 m1 rest).droppedMessages ++
      (splitTruncated cpt tb fp msb m0 m1 rest).recentMessages = m0 :: m1 :: rest := by
  simp only [splitTruncated]
  by_cases hrb : 0 < tb - fp - msb
  · rw [if_pos hrb]
    obtain ⟨k, hk, hdrop, -, -⟩ := keep_reverse_spec cpt (tb - fp - msb) hrb rest
    rw [hdrop, List.length_drop,
      show rest.length - (rest.length - k) = k by omega,
      List.append_assoc, List.take_append_drop]
    rfl
  · rw [if_neg hrb]
    simp

/-- C1: when the split reports truncation with a non-empty anchor pair, the
three tiers partition the input: lengths add up to the input's length and
concatenation in tier order reproduces the input in chronological order. -/
theorem C1_three_tier_invariant (messages : List Message) (config : ThreeTierConfig)
    (h1 : (splitForThreeTierMemory messages config).wasTruncated = true)
    (h2 : (splitForThreeTierMemory messages config).firstPair ≠ []) :
    (splitForThreeTierMemory messages config).firstPair.length +
        (splitForThreeTierMemory messages config).droppedMessages.length +
        (splitForThreeTierMemory messages config).recentMessages.length = messages.length ∧
    (splitForThreeTierMemory messages config).firstPair ++
        (splitForThreeTierMemory messages config).droppedMessages ++
        (splitForThreeTierMemory messages config).recentMessages = messages := by
  rcases messages with _ | ⟨m0, _ | ⟨m1, rest⟩⟩
  · simp [splitForThreeTierMemory] at h1
  · simp [splitForThreeTierMemory] at h1
  · simp only [splitForThreeTierMemory] at h1 h2 ⊢
    split_ifs at h1 h2 ⊢ with hb hfp hall
    · simp at h2
    · simp at h2
    · have hc := splitTruncated_concat (config.charsPerToken.getD 4)
        (calculateHistoryBudget config.toTokenBudgetConfig)
        (estimateContentTokens m0.content (config.charsPerToken.getD 4) +
          estimateContentTokens m1.content (config.charsPerToken.getD 4))
        config.maxSummaryBudgetTokens m0 m1 rest
      refine ⟨?_, hc⟩
      have := congrArg List.length hc
      simp only [List.length_append, List.length_cons] at this ⊢
      omega

/-- Witness for C1: four one-token messages, budget 3, summary slot 1: the
anchor pair is kept, two messages are dropped, the recent tier is empty. -/
theorem C1_witness :
    (splitForThreeTierMemory [msgOfStr "aaaa", msgOfStr "aaaa", msgOfStr "aaaa", msgOfStr "aaaa"]
        { contextWindow := 203, maxOutputTokens := 0,
          maxSummaryBudgetTokens := 1 }).firstPair.length +
      (splitForThreeTierMemory [msgOfStr "aaaa", msgOfStr "aaaa", msgOfStr "aaaa", msgOfStr "aaaa"]
        { contextWindow := 203, maxOutputTokens := 0,
          maxSummaryBudgetTokens := 1 }).droppedMessages.length +
      (splitForThreeTierMemory [msgOfStr "aaaa", msgOfStr "aaaa", msgOfStr "aaaa", msgOfStr "aaaa"]
        { contextWindow := 203, maxOutputTokens := 0,
          maxSummaryBudgetTokens := 1 }).recentMessages.length =
      ([msgOfStr "aaaa", msgOfStr "aaaa", msgOfStr "aaaa", msgOfStr "aaaa"] :
        List Message).length ∧
    (splitForThreeTierMemory [msgOfStr "aaaa", msgOfStr "aaaa", msgOfStr "aaaa", msgOfStr "aaaa"]
        { contextWindow := 203, maxOutputTokens := 0,
          maxSummaryBudgetTokens := 1 }).firstPair ++
      (splitForThreeTierMemory [msgOfStr "aaaa", msgOfStr "aaaa", msgOfStr "aaaa", msgOfStr "aaaa"]
        { contextWindow := 203, maxOutputTokens := 0,
          maxSummaryBudgetTokens := 1 }).droppedMessages ++
      (splitForThreeTierMemory [msgOfStr "aaaa", msgOfStr "aaaa", msgOfStr "aaaa", msgOfStr "aaaa"]
        { contextWindow := 203, maxOutputTokens := 0,
          maxSummaryBudgetTokens := 1 }).recentMessages =
      [msgOfStr "aaaa", msgOfStr "aaaa", msgOfStr "aaaa", msgOfStr "aaaa"] :=
  C1_three_tier_invariant
    [msgOfStr "aaaa", msgOfStr "aaaa", msgOfStr "aaaa", msgOfStr "aaaa"]
    { contextWindow := 203, maxOutputTokens := 0, maxSummaryBudgetTokens := 1 }
    (by decide) (by decide)

/-! Orchestrator lemmas. -/

theorem truncateMessages_eq (mgr : ManagerConfig) (input : BuildHistoryInput) :
    truncateMessages mgr input =
      truncateToTokenBudget input.allHistory (budgetConfigOf mgr input) := by
  rw [truncateMessages]
  by_cases h : input.allHistory.isEmpty
  · rw [if_pos h, List.isEmpty_iff.mp h]
    rfl
  · rw [if_neg h]

theorem buildHistory_notTruncated (mgr : ManagerConfig) (input : BuildHistoryInput)
    (hasContext : Bool) (beh : CollabBehavior) (st : StoreState)
    (h : (splitMessages mgr input).wasTruncated = false) :
    buildHistory mgr input hasContext beh st =
      .ok (input.allHistory ++ pendingList input, st, Calls.zero) := by
  simp [buildHistory, h]

theorem buildHistory_fallback (mgr : ManagerConfig) (input : BuildHistoryInput)
    (hasContext : Bool) (beh : CollabBehavior) (st : StoreState)
    (h1 : (splitMessages mgr input).wasTruncated = true)
    (h2 : (splitMessages mgr input).firstPair = []) :
    buildHistory mgr input hasContext beh st =
      .ok (truncateToTokenBudget input.allHistory (budgetConfigOf mgr input) ++
        pendingList input, st, Calls.zero) := by
  simp [buildHistory, h1, h2, truncateMessages_eq]

theorem buildSummaryMessage_isOk (mgr : ManagerConfig) (beh : CollabBehavior)
    (st : StoreState) (dropped : List Message) :
    ∃ r, buildSummaryMessage mgr beh st dropped = .ok r := by
  rw [buildSummaryMessage]
  split_ifs with h1 h2
  · exact ⟨_, rfl⟩
  · exact ⟨_, rfl⟩
  · cases htb : summaryTryBody beh st dropped with
    | error c => exact ⟨(none, st, c), rfl⟩
    | ok r => exact ⟨r, rfl⟩

theorem buildHistory_summary (mgr : ManagerConfig) (input : BuildHistoryInput)
    (beh : CollabBehavior) (st : StoreState)
    (h1 : (splitMessages mgr input).wasTruncated = true)
    (h2 : (splitMessages mgr input).firstPair ≠ [])
    {m : Option Message} {st' : StoreState} {c : Calls}
    (h3 : buildSummaryMessage mgr beh st (splitMessages mgr input).droppedMessages =
      .ok (m, st', c)) :
    buildHistory mgr input true beh st =
      .ok ((splitMessages mgr input).firstPair ++ m.toList ++
        (splitMessages mgr input).recentMessages ++ pendingList input, st', c) := by
  have h2' : ¬(splitMessages mgr input).firstPair.length = 0 := by
    simpa [List.length_eq_zero] using h2
  simp [buildHistory, h1, h2', h3]

theorem buildHistory_noContext (mgr : ManagerConfig) (input : BuildHistoryInput)
    (beh : CollabBehavior) (st : StoreState)
    (h1 : (splitMessages mgr input).wasTruncated = true)
    (h2 : (splitMessages mgr input).firstPair ≠ []) :
    buildHistory mgr input false beh st =
      .ok ((splitMessages mgr input).firstPair ++
        (splitMessages mgr input).recentMessages ++ pendingList input, st, Calls.zero) := by
  have h2' : ¬(splitMessages mgr input).firstPair.length = 0 := by
    simpa [List.length_eq_zero] using h2
  simp [buildHistory, h1, h2']

/-- The split either reports no truncation or signals fallback (empty
anchor) whenever the whole history fits a positive budget. -/
theorem split_fits_cases (messages : List Message) (config : ThreeTierConfig)
    (hb : 0 < calculateHistoryBudget config.toTokenBudgetConfig)
    (hs : sumTokens (config.charsPerToken.getD 4) messages ≤
      calculateHistoryBudget config.toTokenBudgetConfig) :
    splitForThreeTierMemory messages config =
      { firstPair := [], droppedMessages := [], recentMessages := messages,
        processedThroughIndex := messages.length - 1, wasTruncated := false } ∨
    ((splitForThreeTierMemory messages config).firstPair = [] ∧
      (splitForThreeTierMemory messages config).wasTruncated = true) := by
  rcases messages with _ | ⟨m0, _ | ⟨m1, rest⟩⟩
  · exact Or.inl rfl
  · exact Or.inl rfl
  · simp only [splitForThreeTierMemory]
    split_ifs with hb' hfp
    · exact absurd hb' (not_le.mpr hb)
    · exact Or.inr ⟨rfl, rfl⟩
    · exact Or.inl rfl

/-- The sliding window keeps everything when the history fits the budget. -/
theorem truncateToTokenBudget_all (messages : List Message) (config : TokenBudgetConfig)
    (hb : 0 < calculateHistoryBudget config)
    (hs : sumTokens (config.charsPerToken.getD 4) messages ≤ calculateHistoryBudget config) :
    truncateToTokenBudget messages config = messages := by
  by_cases hm : messages.isEmpty
  · rw [truncateToTokenBudget, if_pos hm, List.isEmpty_iff.mp hm]
  · have hall : keepFromNewest (config.charsPerToken.getD 4) (calculateHistoryBudget config)
        messages.reverse 0 = messages.reverse := by
      apply keepFromNewest_all
      rw [sumTokens_reverse]
      linarith
    simp only [truncateToTokenBudget]
    rw [if_neg hm, if_neg (not_le.mpr hb), hall, List.reverse_reverse]

/-! Claim theorems for the orchestrator. -/

/-- C7: for every behavior of the collaborators (values, null results,
thrown or rejected storage/engine calls, failed persistence writes)
`buildHistory` completes with an ordinary result: no collaborator error
surfaces as `Except.error`. -/
theorem C7_no_collaborator_escape (mgr : ManagerConfig) (input : BuildHistoryInput)
    (hasContext : Bool) (beh : CollabBehavior) (st : StoreState) :
    ∃ out, buildHistory mgr input hasContext beh st = .ok out := by
  cases hT : (splitMessages mgr input).wasTruncated
  · exact ⟨_, buildHistory_notTruncated mgr input hasContext beh st hT⟩
  · by_cases hF : (splitMessages mgr input).firstPair = []
    · exact ⟨_, buildHistory_fallback mgr input hasContext beh st hT hF⟩
    · cases hasContext with
      | false => exact ⟨_, buildHistory_noContext mgr input beh st hT hF⟩
      | true =>
        obtain ⟨⟨m, st', c⟩, h⟩ := buildSummaryMessage_isOk mgr beh st
          (splitMessages mgr input).droppedMessages
        exact ⟨_, buildHistory_summary mgr input beh st hT hF h⟩

/-- C5: whenever the split reports truncation with an empty anchor pair,
`buildHistory` returns the sliding-window truncation of the original full
history under the same budget parameters, with the pending new-user message
appended, making no storage or summarizer calls and leaving the store
untouched. -/
theorem C5_empty_anchor_fallback (mgr : ManagerConfig) (input : BuildHistoryInput)
    (hasContext : Bool) (beh : CollabBehavior) (st : StoreState)
    (h1 : (splitMessages mgr input).wasTruncated = true)
    (h2 : (splitMessages mgr input).firstPair = []) :
    buildHistory mgr input hasContext beh st =
      .ok (truncateToTokenBudget input.allHistory (budgetConfigOf mgr input) ++
        pendingList input, st, Calls.zero) :=
  buildHistory_fallback mgr input hasContext beh st h1 h2

/-- Witness for C5: two messages under an exhausted budget. -/
theorem C5_witness :
    buildHistory { hasStorage := false, hasSummarizer := false }
        { allHistory := [msgOfStr "", msgOfStr ""], contextWindow := 0, maxOutputTokens := 0 }
        false { getThrows := false, summarizeOutcome := .ok none, upsertSucceeds := true }
        ⟨none⟩ =
      .ok (truncateToTokenBudget [msgOfStr "", msgOfStr ""]
          (budgetConfigOf { hasStorage := false, hasSummarizer := false }
            { allHistory := [msgOfStr "", msgOfStr ""], contextWindow := 0, maxOutputTokens := 0 }) ++
        pendingList
          { allHistory := [msgOfStr "", msgOfStr ""], contextWindow := 0, maxOutputTokens := 0 },
        ⟨none⟩, Calls.zero) :=
  C5_empty_anchor_fallback { hasStorage := false, hasSummarizer := false }
    { allHistory := [msgOfStr "", msgOfStr ""], contextWindow := 0, maxOutputTokens := 0 }
    false { getThrows := false, summarizeOutcome := .ok none, upsertSucceeds := true }
    ⟨none⟩ (by decide) (by decide)

/-- C3 (amended): for a non-empty history and a positive available budget at
least the total estimated tokens, `buildHistory` returns exactly the
original history with the pending new-user message appended, making no
storage or summarizer calls.  (The original claim without positivity fails:
see the counterexample with an available budget of exactly zero.) -/
theorem C3_amended_fast_path (mgr : ManagerConfig) (input : BuildHistoryInput)
    (hasContext : Bool) (beh : CollabBehavior) (st : StoreState)
    (_hne : input.allHistory ≠ [])
    (hb : 0 < calculateHistoryBudget (budgetConfigOf mgr input))
    (hs : sumTokens (mgr.charsPerToken.getD 4) input.allHistory ≤
      calculateHistoryBudget (budgetConfigOf mgr input)) :
    buildHistory mgr input hasContext beh st =
      .ok (input.allHistory ++ pendingList input, st, Calls.zero) := by
  by_cases hlen : input.allHistory.length < 2
  · exact buildHistory_notTruncated mgr input hasContext beh st (by rw [splitMessages, if_pos hlen])
  · have hsp : splitMessages mgr input =
        splitForThreeTierMemory input.allHistory (threeTierConfigOf mgr input) := by
      rw [splitMessages, if_neg hlen]
    rcases split_fits_cases input.allHistory (threeTierConfigOf mgr input) hb hs with hcase | ⟨hfp, htr⟩
    · exact buildHistory_notTruncated mgr input hasContext beh st (by rw [hsp, hcase])
    · rw [buildHistory_fallback mgr input hasContext beh st (by rw [hsp]; exact htr)
        (by rw [hsp]; exact hfp),
        truncateToTokenBudget_all input.allHistory (budgetConfigOf mgr input) hb hs]

/-- Witness for C3: a single short message under a large budget. -/
theorem C3_witness :
    buildHistory { hasStorage := false, hasSummarizer := false }
        { allHistory := [msgOfStr "hi"], contextWindow := 1000, maxOutputTokens := 0 }
        false { getThrows := false, summarizeOutcome := .ok none, upsertSucceeds := true }
        ⟨none⟩ =
      .ok ([msgOfStr "hi"] ++
        pendingList
          { allHistory := [msgOfStr "hi"], contextWindow := 1000, maxOutputTokens := 0 },
        ⟨none⟩, Calls.zero) :=
  C3_amended_fast_path { hasStorage := false, hasSummarizer := false }
    { allHistory := [msgOfStr "hi"], contextWindow := 1000, maxOutputTokens := 0 }
    false { getThrows := false, summarizeOutcome := .ok none, upsertSucceeds := true }
    ⟨none⟩ (by decide) (by decide) (by decide)

/-- Counterexample to C3 as stated: two messages of empty content with an
available budget of exactly 0 satisfy "non-empty history, budget at least
the total estimated tokens (0 ≤ 0)", yet `buildHistory` takes the
exhausted-budget fallback and returns the empty list, not the original
history. -/
theorem C3_counterexample :
    calculateHistoryBudget (budgetConfigOf { hasStorage := false, hasSummarizer := false }
      { allHistory := [msgOfStr "", msgOfStr ""], contextWindow := 200,
        maxOutputTokens := 0 }) = 0 ∧
    sumTokens 4 [msgOfStr "", msgOfStr ""] = 0 ∧
    buildHistory { hasStorage := false, hasSummarizer := false }
        { allHistory := [msgOfStr "", msgOfStr ""], contextWindow := 200, maxOutputTokens := 0 }
        false { getThrows := false, summarizeOutcome := .ok none, upsertSucceeds := true }
        ⟨none⟩ =
      .ok ([], ⟨none⟩, Calls.zero) ∧
    ([] : List Message) ≠ [msgOfStr "", msgOfStr ""] := by decide

/-- C10: an empty-string pending message behaves exactly like an absent
one: the available budget is unchanged (the truthiness guard skips the
deduction) and `buildHistory` produces the identical result, with nothing
appended. -/
theorem C10_empty_new_message_like_absent :
    (∀ c : TokenBudgetConfig,
      calculateHistoryBudget { c with newUserMessage := some "" } =
        calculateHistoryBudget { c with newUserMessage := none }) ∧
    (∀ (mgr : ManagerConfig) (input : BuildHistoryInput) (hasContext : Bool)
        (beh : CollabBehavior) (st : StoreState),
      buildHistory mgr { input with newUserMessage := some "" } hasContext beh st =
        buildHistory mgr { input with newUserMessage := none } hasContext beh st) :=
  ⟨fun _ => rfl, fun _ _ _ _ _ => rfl⟩

/-! Summary-resolution lemmas for the marker round-trip and failure paths. -/

/-- The marker decode: with a record of marker `m`, the newly dropped
messages are the dropped tier with its first `(m - 1).toNat` messages
removed (`Int.toNat` clamps at zero, so this is `max (m - 1) 0`). -/
theorem newlyDroppedOf_eq_drop (r : MemorySummaryRecord) (dropped : List Message) :
    newlyDroppedOf (some r) dropped =
      dropped.drop (r.summarizedThroughIndex - 1).toNat := by
  rw [newlyDroppedOf]
  by_cases h1 : 1 < r.summarizedThroughIndex
  · rw [if_pos h1]
    by_cases h2 : r.summarizedThroughIndex - 1 < (dropped.length : ℤ)
    · rw [if_pos h2]
    · rw [if_neg h2]
      exact (List.drop_eq_nil_of_le (by omega)).symm
  · rw [if_neg h1, show (r.summarizedThroughIndex - 1).toNat = 0 by omega, List.drop_zero]

theorem buildSummaryMessage_guards_ne (mgr : ManagerConfig)
    (hsto : mgr.hasStorage = true) (hsmr : mgr.hasSummarizer = true)
    (hen : mgr.summarizationEnabled = true) (dropped : List Message) (hd : dropped ≠ []) :
    ¬(dropped.length = 0 ∨ mgr.summarizationEnabled = false) ∧
      ¬(mgr.hasStorage = false ∨ mgr.hasSummarizer = false) := by
  constructor
  · push_neg
    exact ⟨by simpa [List.length_eq_zero] using hd, by simp [hen]⟩
  · push_neg
    exact ⟨by simp [hsto], by simp [hsmr]⟩

/-- Cached-summary short circuit: with a record present and no newly
dropped messages, the stored summary text is returned with one storage
read, no engine call and no write, leaving the store untouched. -/
theorem buildSummaryMessage_cached (mgr : ManagerConfig) (beh : CollabBehavior)
    (st : StoreState) (dropped : List Message) (r : MemorySummaryRecord)
    (hsto : mgr.hasStorage = true) (hsmr : mgr.hasSummarizer = true)
    (hen : mgr.summarizationEnabled = true) (hg : beh.getThrows = false)
    (hr : st.record = some r) (hd : dropped ≠ [])
    (hnd : newlyDroppedOf (some r) dropped = []) :
    buildSummaryMessage mgr beh st dropped =
      .ok (some (summaryWrap r.summary), st, ⟨1, 0, 0⟩) := by
  obtain ⟨hg1, hg2⟩ := buildSummaryMessage_guards_ne mgr hsto hsmr hen dropped hd
  rw [buildSummaryMessage, if_neg hg1, if_neg hg2, summaryTryBody,
    if_neg (by simp [hg])]
  simp [hr, hnd]

/-- Engine-call outcome: with newly dropped messages to summarize, the
result is decided by the engine's outcome (throw is caught to no summary;
a falsy result — null or the empty string — falls back to the existing
record; a truthy result returns the new summary and persists the marker
`dropped.length + 1` exactly when the write succeeds). -/
theorem buildSummaryMessage_engine (mgr : ManagerConfig) (beh : CollabBehavior)
    (st : StoreState) (dropped : List Message)
    (hsto : mgr.hasStorage = true) (hsmr : mgr.hasSummarizer = true)
    (hen : mgr.summarizationEnabled = true) (hg : beh.getThrows = false)
    (hd : dropped ≠ []) (hnd : newlyDroppedOf st.record dropped ≠ []) :
    buildSummaryMessage mgr beh st dropped =
      match beh.summarizeOutcome with
      | .throwErr => .ok (none, st, ⟨1, 1, 0⟩)
      | .ok res =>
        if strTruthy res then
          .ok (some (summaryWrap (res.getD "")),
            if beh.upsertSucceeds then ⟨some ⟨res.getD "", (dropped.length : ℤ) + 1⟩⟩ else st,
            ⟨1, 1, 1⟩)
        else .ok (st.record.map fun r => summaryWrap r.summary, st, ⟨1, 1, 0⟩) := by
  obtain ⟨hg1, hg2⟩ := buildSummaryMessage_guards_ne mgr hsto hsmr hen dropped hd
  have hlen : 0 < (newlyDroppedOf st.record dropped).length := by
    cases hh : newlyDroppedOf st.record dropped with
    | nil => exact absurd hh hnd
    | cons a l => simp
  rw [buildSummaryMessage, if_neg hg1, if_neg hg2, summaryTryBody,
    if_neg (by simp [hg]), if_neg (by simp [hnd]), if_pos hlen]
  cases hso : beh.summarizeOutcome with
  | throwErr => rfl
  | ok res =>
    by_cases ht : strTruthy res = true
    · simp [ht]
    · cases hrec : st.record <;> simp [hrec, ht]

/-- A thrown/rejected storage read is caught: no summary message, store
untouched, one storage call, no engine call, no write. -/
theorem buildSummaryMessage_getThrows (mgr : ManagerConfig) (beh : CollabBehavior)
    (st : StoreState) (dropped : List Message)
    (hsto : mgr.hasStorage = true) (hsmr : mgr.hasSummarizer = true)
    (hen : mgr.summarizationEnabled = true) (hg : beh.getThrows = true)
    (hd : dropped ≠ []) :
    buildSummaryMessage mgr beh st dropped = .ok (none, st, ⟨1, 0, 0⟩) := by
  obtain ⟨hg1, hg2⟩ := buildSummaryMessage_guards_ne mgr hsto hsmr hen dropped hd
  rw [buildSummaryMessage, if_neg hg1, if_neg hg2, summaryTryBody, if_pos (by simp [hg])]

/-- C4 (amended): the marker round-trip.  (1) A record with marker `m`
leaves `(m - 1).toNat` — that is, `max (m − 1) 0` — leading dropped
messages out of re-summarization.  (2) When the dropped tier is non-empty,
its length equals that count and a record exists, the stored summary text
is returned with zero engine calls.  (3) After a successful engine call
the persisted marker is the dropped-tier length plus one, and an
immediately repeated `buildHistory` call with identical inputs makes zero
engine calls.  A successful engine call is one returning a truthy —
non-empty — summary string, per the `if (summaryText)` guard; the
repeated-call conjunct instantiates the specification's "storage stub that
persists between calls" through the write-succeeds oracle.  (The original
claim without the non-emptiness qualification fails: an empty dropped tier
with marker 1 returns no summary message; see the counterexample.) -/
theorem C4_amended_marker_roundtrip :
    (∀ (r : MemorySummaryRecord) (dropped : List Message),
      newlyDroppedOf (some r) dropped =
        dropped.drop (r.summarizedThroughIndex - 1).toNat) ∧
    (∀ (mgr : ManagerConfig) (beh : CollabBehavior) (st : StoreState)
        (dropped : List Message) (r : MemorySummaryRecord),
      mgr.hasStorage = true → mgr.hasSummarizer = true →
      mgr.summarizationEnabled = true → beh.getThrows = false →
      st.record = some r → dropped ≠ [] →
      dropped.length = (r.summarizedThroughIndex - 1).toNat →
      buildSummaryMessage mgr beh st dropped =
        .ok (some (summaryWrap r.summary), st, ⟨1, 0, 0⟩)) ∧
    (∀ (mgr : ManagerConfig) (input : BuildHistoryInput) (beh₁ : CollabBehavior)
        (st : StoreState) (t : String),
      mgr.hasStorage = true → mgr.hasSummarizer = true →
      mgr.summarizationEnabled = true → beh₁.getThrows = false →
      beh₁.summarizeOutcome = .ok (some t) → strTruthy (some t) = true →
      beh₁.upsertSucceeds = true →
      (splitMessages mgr input).wasTruncated = true →
      (splitMessages mgr input).firstPair ≠ [] →
      (splitMessages mgr input).droppedMessages ≠ [] →
      newlyDroppedOf st.record (splitMessages mgr input).droppedMessages ≠ [] →
      ∃ msgs, buildHistory mgr input true beh₁ st =
          .ok (msgs,
            ⟨some ⟨t, ((splitMessages mgr input).droppedMessages.length : ℤ) + 1⟩⟩,
            ⟨1, 1, 1⟩) ∧
        ∀ beh₂ : CollabBehavior, ∃ out,
          buildHistory mgr input true beh₂
              ⟨some ⟨t, ((splitMessages mgr input).droppedMessages.length : ℤ) + 1⟩⟩ =
            .ok out ∧ out.2.2.summarizeCalls = 0) := by
  refine ⟨newlyDroppedOf_eq_drop, ?_, ?_⟩
  · intro mgr beh st dropped r hsto hsmr hen hg hr hd hlen
    apply buildSummaryMessage_cached mgr beh st dropped r hsto hsmr hen hg hr hd
    rw [newlyDroppedOf_eq_drop, ← hlen]
    exact List.drop_length dropped
  · intro mgr input beh₁ st t hsto hsmr hen hg hout ht hup hT hF hd hnd
    have heng := buildSummaryMessage_engine mgr beh₁ st
      (splitMessages mgr input).droppedMessages hsto hsmr hen hg hd hnd
    rw [hout] at heng
    simp only [ht, if_true, hup, Option.getD_some] at heng
    refine ⟨_, buildHistory_summary mgr input beh₁ st hT hF heng, ?_⟩
    intro beh₂
    cases hg2 : beh₂.getThrows
    · have hnd2 : newlyDroppedOf
          (some ⟨t, ((splitMessages mgr input).droppedMessages.length : ℤ) + 1⟩)
          (splitMessages mgr input).droppedMessages = [] := by
        rw [newlyDroppedOf_eq_drop]
        simp
      have hcached := buildSummaryMessage_cached mgr beh₂
        ⟨some ⟨t, ((splitMessages mgr input).droppedMessages.length : ℤ) + 1⟩⟩
        (splitMessages mgr input).droppedMessages
        ⟨t, ((splitMessages mgr input).droppedMessages.length : ℤ) + 1⟩
        hsto hsmr hen hg2 rfl hd hnd2
      exact ⟨_, buildHistory_summary mgr input beh₂ _ hT hF hcached, rfl⟩
    · have hthrow := buildSummaryMessage_getThrows mgr beh₂
        ⟨some ⟨t, ((splitMessages mgr input).droppedMessages.length : ℤ) + 1⟩⟩
        (splitMessages mgr input).droppedMessages hsto hsmr hen hg2 hd
      exact ⟨_, buildHistory_summary mgr input beh₂ _ hT hF hthrow, rfl⟩

/-- Counterexample to C4 as stated: with a record of marker 1 (so
`max (m − 1, 0) = 0` already-summarized messages) and a dropped tier of
length 0 — equal to that count — summary resolution returns no message at
all (the empty-dropped guard fires first), not the stored summary text. -/
theorem C4_counterexample :
    buildSummaryMessage { hasStorage := true, hasSummarizer := true }
        { getThrows := false, summarizeOutcome := .ok none, upsertSucceeds := true }
        ⟨some ⟨"old", 1⟩⟩ [] =
      .ok (none, ⟨some ⟨"old", 1⟩⟩, Calls.zero) ∧
    ([] : List Message).length = ((1 : ℤ) - 1).toNat ∧
    (none : Option Message) ≠ some (summaryWrap "old") := by decide

/-- Witness for C4 at concrete inputs: the marker decode, the cached short
circuit, and the summarize-then-repeat scenario with zero second-call
engine calls. -/
theorem C4_witness :
    (newlyDroppedOf (some ⟨"s", 3⟩) [msgOfStr "a"] =
      [msgOfStr "a"].drop (((3 : ℤ) - 1)).toNat) ∧
    (buildSummaryMessage { hasStorage := true, hasSummarizer := true }
        { getThrows := false, summarizeOutcome := .ok none, upsertSucceeds := true }
        ⟨some ⟨"old", 2⟩⟩ [msgOfStr "a"] =
      .ok (some (summaryWrap "old"), ⟨some ⟨"old", 2⟩⟩, ⟨1, 0, 0⟩)) ∧
    (∃ msgs, buildHistory
          { hasStorage := true, hasSummarizer := true, maxSummaryBudgetTokens := 1 }
          { allHistory := [msgOfStr "aaaa", msgOfStr "aaaa", msgOfStr "aaaa", msgOfStr "aaaa"],
            contextWindow := 203, maxOutputTokens := 0 }
          true { getThrows := false, summarizeOutcome := .ok (some "s"), upsertSucceeds := true }
          ⟨none⟩ =
        .ok (msgs,
          ⟨some ⟨"s", ((splitMessages
              { hasStorage := true, hasSummarizer := true, maxSummaryBudgetTokens := 1 }
              { allHistory :=
                  [msgOfStr "aaaa", msgOfStr "aaaa", msgOfStr "aaaa", msgOfStr "aaaa"],
                contextWindow := 203,
                maxOutputTokens := 0 }).droppedMessages.length : ℤ) + 1⟩⟩,
          ⟨1, 1, 1⟩) ∧
      ∀ beh₂ : CollabBehavior, ∃ out,
        buildHistory { hasStorage := true, hasSummarizer := true, maxSummaryBudgetTokens := 1 }
            { allHistory := [msgOfStr "aaaa", msgOfStr "aaaa", msgOfStr "aaaa", msgOfStr "aaaa"],
              contextWindow := 203, maxOutputTokens := 0 }
            true beh₂
            ⟨some ⟨"s", ((splitMessages
                { hasStorage := true, hasSummarizer := true, maxSummaryBudgetTokens := 1 }
                { allHistory :=
                    [msgOfStr "aaaa", msgOfStr "aaaa", msgOfStr "aaaa", msgOfStr "aaaa"],
                  contextWindow := 203,
                  maxOutputTokens := 0 }).droppedMessages.length : ℤ) + 1⟩⟩ =
          .ok out ∧ out.2.2.summarizeCalls = 0) :=
  ⟨C4_amended_marker_roundtrip.1 ⟨"s", 3⟩ [msgOfStr "a"],
   C4_amended_marker_roundtrip.2.1 { hasStorage := true, hasSummarizer := true }
     { getThrows := false, summarizeOutcome := .ok none, upsertSucceeds := true }
     ⟨some ⟨"old", 2⟩⟩ [msgOfStr "a"] ⟨"old", 2⟩ rfl rfl rfl rfl rfl (by decide) (by decide),
   C4_amended_marker_roundtrip.2.2
     { hasStorage := true, hasSummarizer := true, maxSummaryBudgetTokens := 1 }
     { allHistory := [msgOfStr "aaaa", msgOfStr "aaaa", msgOfStr "aaaa", msgOfStr "aaaa"],
       contextWindow := 203, maxOutputTokens := 0 }
     { getThrows := false, summarizeOutcome := .ok (some "s"), upsertSucceeds := true }
     ⟨none⟩ "s" rfl rfl rfl rfl rfl (by decide) rfl (by decide) (by decide) (by decide) (by decide)⟩

/-- C6 (amended): failure handling of summary resolution.  An engine `null`
result falls back to the existing summary when a record exists and to no
summary otherwise; a thrown/rejected storage read or engine call is caught
and resolves to no summary message even if a record exists; in every
failure case the store is left untouched (no new record is persisted).
(The original claim fails for a throwing engine with an existing record:
the catch returns no summary instead of the stored one; see the
counterexample.) -/
theorem C6_amended_failure_fallback :
    (∀ (mgr : ManagerConfig) (beh : CollabBehavior) (st : StoreState)
        (dropped : List Message) (r : MemorySummaryRecord),
      mgr.hasStorage = true → mgr.hasSummarizer = true →
      mgr.summarizationEnabled = true → beh.getThrows = false →
      st.record = some r → beh.summarizeOutcome = .ok none →
      dropped ≠ [] → newlyDroppedOf (some r) dropped ≠ [] →
      buildSummaryMessage mgr beh st dropped =
        .ok (some (summaryWrap r.summary), st, ⟨1, 1, 0⟩)) ∧
    (∀ (mgr : ManagerConfig) (beh : CollabBehavior) (st : StoreState)
        (dropped : List Message),
      mgr.hasStorage = true → mgr.hasSummarizer = true →
      mgr.summarizationEnabled = true → beh.getThrows = false →
      st.record = none → beh.summarizeOutcome = .ok none → dropped ≠ [] →
      buildSummaryMessage mgr beh st dropped = .ok (none, st, ⟨1, 1, 0⟩)) ∧
    (∀ (mgr : ManagerConfig) (beh : CollabBehavior) (st : StoreState)
        (dropped : List Message),
      mgr.hasStorage = true → mgr.hasSummarizer = true →
      mgr.summarizationEnabled = true → beh.getThrows = true → dropped ≠ [] →
      buildSummaryMessage mgr beh st dropped = .ok (none, st, ⟨1, 0, 0⟩)) ∧
    (∀ (mgr : ManagerConfig) (beh : CollabBehavior) (st : StoreState)
        (dropped : List Message),
      mgr.hasStorage = true → mgr.hasSummarizer = true →
      mgr.summarizationEnabled = true → beh.getThrows = false →
      beh.summarizeOutcome = .throwErr → dropped ≠ [] →
      newlyDroppedOf st.record dropped ≠ [] →
      buildSummaryMessage mgr beh st dropped = .ok (none, st, ⟨1, 1, 0⟩)) := by
  refine ⟨?_, ?_, ?_, ?_⟩
  · intro mgr beh st dropped r hsto hsmr hen hg hr hout hd hnd
    have heng := buildSummaryMessage_engine mgr beh st dropped hsto hsmr hen hg hd
      (by rw [hr]; exact hnd)
    rw [hout, hr] at heng
    simpa [strTruthy] using heng
  · intro mgr beh st dropped hsto hsmr hen hg hr hout hd
    have heng := buildSummaryMessage_engine mgr beh st dropped hsto hsmr hen hg hd
      (by rw [hr, newlyDroppedOf]; exact hd)
    rw [hout, hr] at heng
    simpa [strTruthy] using heng
  · exact fun mgr beh st dropped hsto hsmr hen hg hd =>
      buildSummaryMessage_getThrows mgr beh st dropped hsto hsmr hen hg hd
  · intro mgr beh st dropped hsto hsmr hen hg hout hd hnd
    have heng := buildSummaryMessage_engine mgr beh st dropped hsto hsmr hen hg hd hnd
    rw [hout] at heng
    exact heng

/-- Counterexample to C6 as stated: a throwing engine with an existing
record of summary "old" is caught and resolved to *no* summary message —
the stored summary is not returned, and nothing is persisted. -/
theorem C6_counterexample :
    buildSummaryMessage { hasStorage := true, hasSummarizer := true }
        { getThrows := false, summarizeOutcome := .throwErr, upsertSucceeds := true }
        ⟨some ⟨"old", 2⟩⟩ [msgOfStr "a", msgOfStr "b"] =
      .ok (none, ⟨some ⟨"old", 2⟩⟩, ⟨1, 1, 0⟩) ∧
    (none : Option Message) ≠ some (summaryWrap "old") := by decide

/-- Witness for C6 at concrete inputs: each failure path. -/
theorem C6_witness :
    (buildSummaryMessage { hasStorage := true, hasSummarizer := true }
        { getThrows := false, summarizeOutcome := .ok none, upsertSucceeds := true }
        ⟨some ⟨"old", 1⟩⟩ [msgOfStr "a"] =
      .ok (some (summaryWrap "old"), ⟨some ⟨"old", 1⟩⟩, ⟨1, 1, 0⟩)) ∧
    (buildSummaryMessage { hasStorage := true, hasSummarizer := true }
        { getThrows := false, summarizeOutcome := .ok none, upsertSucceeds := true }
        ⟨none⟩ [msgOfStr "a"] = .ok (none, ⟨none⟩, ⟨1, 1, 0⟩)) ∧
    (buildSummaryMessage { hasStorage := true, hasSummarizer := true }
        { getThrows := true, summarizeOutcome := .ok none, upsertSucceeds := true }
        ⟨some ⟨"old", 1⟩⟩ [msgOfStr "a"] = .ok (none, ⟨some ⟨"old", 1⟩⟩, ⟨1, 0, 0⟩)) ∧
    (buildSummaryMessage { hasStorage := true, hasSummarizer := true }
        { getThrows := false, summarizeOutcome := .throwErr, upsertSucceeds := true }
        ⟨none⟩ [msgOfStr "a"] = .ok (none, ⟨none⟩, ⟨1, 1, 0⟩)) :=
  ⟨C6_amended_failure_fallback.1 { hasStorage := true, hasSummarizer := true }
     { getThrows := false, summarizeOutcome := .ok none, upsertSucceeds := true }
     ⟨some ⟨"old", 1⟩⟩ [msgOfStr "a"] ⟨"old", 1⟩ rfl rfl rfl rfl rfl rfl (by decide) (by decide),
   C6_amended_failure_fallback.2.1 { hasStorage := true, hasSummarizer := true }
     { getThrows := false, summarizeOutcome := .ok none, upsertSucceeds := true }
     ⟨none⟩ [msgOfStr "a"] rfl rfl rfl rfl rfl rfl (by decide),
   C6_amended_failure_fallback.2.2.1 { hasStorage := true, hasSummarizer := true }
     { getThrows := true, summarizeOutcome := .ok none, upsertSucceeds := true }
     ⟨some ⟨"old", 1⟩⟩ [msgOfStr "a"] rfl rfl rfl rfl (by decide),
   C6_amended_failure_fallback.2.2.2 { hasStorage := true, hasSummarizer := true }
     { getThrows := false, summarizeOutcome := .throwErr, upsertSucceeds := true }
     ⟨none⟩ [msgOfStr "a"] rfl rfl rfl rfl rfl (by decide) (by decide)⟩

end ChatMemory
